import Mathlib

/-!
Shallow embedding of the contact-book core of `agenda-contactos`:
the record model `Persona` (src/models.py), the storage gateway
`Coneccion` (src/manejo_base_datos.py) and the service bridge
`Funcionalidad` (src/funcionalidad.py).

Python strings are modelled by Lean `String` on the ASCII fragment;
the SQLite table is a list of rows plus an auto-increment counter;
`raise` is modelled by `Except`, and mutating operations return the
new state together with an optional propagated error, so that the
state after a failed call is explicit.
-/

/-- Whitespace characters removed by Python `str.strip` (ASCII fragment):
space, tab, newline, carriage return, vertical tab, form feed, and the
four ASCII separator control characters FS, GS, RS and US, all of which
CPython treats as whitespace. -/
def pyIsSpace (c : Char) : Bool :=
  c = ' ' || c = '\t' || c = '\n' || c = '\x0d' || c = '\x0b' || c = '\x0c' ||
  c = '\x1c' || c = '\x1d' || c = '\x1e' || c = '\x1f'

/-- Strip leading and trailing whitespace from a character list. -/
def stripList (l : List Char) : List Char :=
  ((l.dropWhile pyIsSpace).reverse.dropWhile pyIsSpace).reverse

/-- Python `str.strip()` on the ASCII fragment. -/
def pyStrip (s : String) : String :=
  ⟨stripList s.data⟩

/-- Python `str.isdigit()` on the ASCII fragment: non-empty and all
decimal digits. -/
def pyIsdigit (s : String) : Bool :=
  !s.data.isEmpty && s.data.all Char.isDigit

/-- Truth value Python assigns to a string in boolean context: non-empty. -/
def pyTruthy (s : String) : Bool :=
  !s.data.isEmpty

/-- Matching of the anchored regular expression used by the email setter
and by `validar`: one or more non-at characters, at sign, one or more
non-at characters, dot, one or more non-at characters.  The part before
the first at sign must be non-empty, the part after it must contain no
further at sign and must contain a dot that is neither its first nor its
last character. -/
def emailMatch (s : String) : Bool :=
  match s.data.dropWhile (fun c => c != '@') with
  | [] => false
  | _ :: despues =>
    !(s.data.takeWhile (fun c => c != '@')).isEmpty &&
      despues.all (fun c => c != '@') &&
      ((despues.drop 1).dropLast.contains '.')

/-- Contact record (class `Persona` in src/models.py).  The identifier is
absent until the row is persisted. -/
structure Persona where
  id : Option Nat
  nombre : String
  apellido : String
  telefono : String
  email : String
deriving DecidableEq, Repr

/-- Constructor `Persona.__init__`: strips whitespace from every field,
performs no validation, leaves the identifier absent. -/
def Persona.nueva (nombre apellido telefono email : String) : Persona :=
  { id := none
    nombre := pyStrip nombre
    apellido := pyStrip apellido
    telefono := pyStrip telefono
    email := pyStrip email }

/-- Setter of the `nombre` property: rejects the empty string, stores the
stripped value. -/
def Persona.set_nombre (p : Persona) (nombre : String) : Except String Persona :=
  if !pyTruthy nombre then .error "El nombre no puede estar vacío"
  else .ok { p with nombre := pyStrip nombre }

/-- Setter of the `apellido` property: rejects the empty string, stores the
stripped value. -/
def Persona.set_apellido (p : Persona) (apellido : String) : Except String Persona :=
  if !pyTruthy apellido then .error "El apellido no puede estar vacío"
  else .ok { p with apellido := pyStrip apellido }

/-- Setter of the `telefono` property: requires a non-empty all-digit
string, stores the stripped value. -/
def Persona.set_telefono (p : Persona) (telefono : String) : Except String Persona :=
  if !pyTruthy telefono || !pyIsdigit telefono then
    .error "El teléfono debe ser un número válido"
  else .ok { p with telefono := pyStrip telefono }

/-- Setter of the `email` property: requires a match of the structural
email pattern, stores the stripped value. -/
def Persona.set_email (p : Persona) (email : String) : Except String Persona :=
  if !pyTruthy email || !emailMatch email then
    .error "El email debe ser válido"
  else .ok { p with email := pyStrip email }

/-- Bulk validation `Persona.validar`: checks the four fields in order and
raises on the first offending one. -/
def Persona.validar (p : Persona) : Except String Unit :=
  if !pyTruthy p.nombre then .error "El nombre no puede estar vacío"
  else if !pyTruthy p.apellido then .error "El apellido no puede estar vacío"
  else if !pyTruthy p.telefono || !pyIsdigit p.telefono then
    .error "El teléfono debe ser un número válido"
  else if !pyTruthy p.email || !emailMatch p.email then
    .error "El email debe ser válido"
  else .ok ()

/-- Ordered four-tuple `Persona.to_tupla`, the form bound into the
parameterized insert. -/
def Persona.to_tupla (p : Persona) : String × String × String × String :=
  (p.nombre, p.apellido, p.telefono, p.email)

/-- One row of the `personas` table. -/
structure Fila where
  id : Nat
  nombre : String
  apellido : String
  telefono : String
  email : String
deriving DecidableEq, Repr

/-- Decoder `Persona.from_db_row`: rebuilds a `Persona` from a stored row;
the constructor strips every field again and keeps the identifier. -/
def Persona.from_db_row (f : Fila) : Persona :=
  { Persona.nueva f.nombre f.apellido f.telefono f.email with id := some f.id }

/-- State of the SQLite `personas` table: the stored rows in insertion
order plus the auto-increment counter for the next identifier. -/
structure BaseDatos where
  filas : List Fila
  siguienteId : Nat
deriving DecidableEq, Repr

/-- Well-formedness maintained by the auto-increment column: every stored
identifier is below the counter. -/
def BaseDatos.wf (bd : BaseDatos) : Prop :=
  ∀ f ∈ bd.filas, f.id < bd.siguienteId

/-- Gateway `Coneccion.insertar_persona`: re-validates the contact, and
only on success binds its four-tuple into the parameterized insert, which
appends a fresh row and bumps the counter.  The second component is the
propagated error, `none` on success; on error the table is returned
unchanged. -/
def insertar_persona (bd : BaseDatos) (p : Persona) : BaseDatos × Option String :=
  match p.validar with
  | .error e => (bd, some e)
  | .ok _ =>
    ({ filas := bd.filas ++
        [{ id := bd.siguienteId, nombre := p.nombre, apellido := p.apellido
           telefono := p.telefono, email := p.email }]
       siguienteId := bd.siguienteId + 1 }, none)

/-- Gateway `Coneccion.obtener_persona_por_id`: runs the select filtered
by identifier and decodes the first row, or returns `none`. -/
def obtener_persona_por_id (bd : BaseDatos) (i : Nat) : Option Persona :=
  match bd.filas.filter (fun f => f.id == i) with
  | [] => none
  | f :: _ => some (Persona.from_db_row f)

/-- Gateway `Coneccion.obtener_personas`: decodes every stored row. -/
def obtener_personas (bd : BaseDatos) : List Persona :=
  bd.filas.map Persona.from_db_row

/-- Case folding applied by SQLite `LIKE`: ASCII letters only. -/
def sqliteLower (c : Char) : Char :=
  if 'A' ≤ c ∧ c ≤ 'Z' then Char.ofNat (c.toNat + 32) else c

/-- Semantics of the SQLite `LIKE` operator: percent matches any sequence
(tried against every suffix of the string), underscore matches any single
character, other characters match up to ASCII case folding; the pattern
must cover the whole string. -/
def likeMatch : List Char → List Char → Bool
  | [], s => s.isEmpty
  | p :: ps, s =>
    if p = '%' then (List.range (s.length + 1)).any (fun n => likeMatch ps (s.drop n))
    else
      match s with
      | [] => false
      | c :: s2 => (decide (p = '_') || sqliteLower p == sqliteLower c) && likeMatch ps s2

/-- Pattern bound for the search criterion: a percent sign on each side of
the raw criterion, as built by `f-string` interpolation in
`Funcionalidad.buscar_contacto`. -/
def patronBusqueda (criterio : String) : List Char :=
  '%' :: (criterio.data ++ ['%'])

/-- Row predicate of the search select: the `LIKE` pattern is tried against
the name, surname and email columns only. -/
def filaCoincide (criterio : String) (f : Fila) : Bool :=
  likeMatch (patronBusqueda criterio) f.nombre.data ||
  likeMatch (patronBusqueda criterio) f.apellido.data ||
  likeMatch (patronBusqueda criterio) f.email.data

/-- Rows produced by the search select when the query itself succeeds. -/
def evalConsultaBusqueda (bd : BaseDatos) (criterio : String) : List Fila :=
  bd.filas.filter (filaCoincide criterio)

/-- Service `Funcionalidad.buscar_contacto`, parameterized by the outcome
of the underlying query: on success every returned row is decoded, on any
failure the error is swallowed and the empty list is returned. -/
def buscar_contacto (resultado : Except String (List Fila)) : List Persona :=
  match resultado with
  | .error _ => []
  | .ok filas => filas.map Persona.from_db_row

/-- Service search composed with a successful evaluation of its select. -/
def buscar_contacto_ok (bd : BaseDatos) (criterio : String) : List Persona :=
  buscar_contacto (.ok (evalConsultaBusqueda bd criterio))

/-- Service `Funcionalidad.eliminar_contacto`: rejects a falsy identifier
(absent, or zero in Python boolean context) with a usage error, otherwise
runs the parameterized delete-by-id and reports success; the second
component is the propagated error. -/
def eliminar_contacto (bd : BaseDatos) (idContacto : Option Nat) :
    BaseDatos × Option String :=
  match idContacto with
  | none => (bd, some "Debe proporcionar un ID válido para eliminar el contacto")
  | some i =>
    if i = 0 then (bd, some "Debe proporcionar un ID válido para eliminar el contacto")
    else ({ bd with filas := bd.filas.filter (fun f => !(f.id == i)) }, none)

/-- Mutable state of the service bridge `Funcionalidad`: the current
contact and the connection. -/
structure Funcionalidad where
  persona : Option Persona
  bd : BaseDatos
deriving DecidableEq, Repr

/-- Service `Funcionalidad.agregar_contacto`: requires a current contact,
validates it and delegates to the gateway insert; the state after a
failure is returned alongside the error. -/
def agregar_contacto (st : Funcionalidad) : Funcionalidad × Option String :=
  match st.persona with
  | none => (st, some "No hay contacto para agregar")
  | some p =>
    match p.validar with
    | .error e => (st, some e)
    | .ok _ =>
      let r := insertar_persona st.bd p
      ({ st with bd := r.1 }, r.2)

/-- Wrapping applied to any exception escaping the CSV import. -/
def mensajeImportacion (e : String) : String :=
  "Error al importar el archivo CSV: " ++ e

/-- Contact constructed from a well-shaped CSV row. -/
def contactoDeFila (fila : List String) : Option Persona :=
  match fila with
  | [n, a, t, e] => some (Persona.nueva n a t e)
  | _ => none

/-- Service `Funcionalidad.importar_contactos_desde_csv` on an already
parsed row list.  Each four-column row is turned into a contact, the
current contact is set to it, and the contact is added; the first failure
(a row of the wrong width, or a validation error inside the add) aborts
the remaining rows and surfaces one wrapped error, with all state changes
made so far kept. -/
def importar_contactos_desde_csv (st : Funcionalidad) :
    List (List String) → Funcionalidad × Option String
  | [] => (st, none)
  | fila :: resto =>
    match fila with
    | [n, a, t, e] =>
      let contacto := Persona.nueva n a t e
      let st1 := { st with persona := some contacto }
      match agregar_contacto st1 with
      | (st2, none) => importar_contactos_desde_csv st2 resto
      | (st2, some e) => (st2, some (mensajeImportacion e))
    | _ => (st, some (mensajeImportacion "la fila no tiene cuatro columnas"))

/-- First list is an initial segment of the second. -/
def empiezaCon : List Char → List Char → Bool
  | [], _ => true
  | _ :: _, [] => false
  | a :: t, b :: s => a == b && empiezaCon t s

/-- First list occurs contiguously inside the second. -/
def esSubLista : List Char → List Char → Bool
  | t, [] => t.isEmpty
  | t, b :: s => empiezaCon t (b :: s) || esSubLista t s

/-- Literal case-sensitive substring test, used to state that a search hit
need not contain the raw criterion literally. -/
def esSubcadenaLiteral (t s : List Char) : Bool :=
  esSubLista t s

/-- Case-insensitive (ASCII) substring occurrence, the declarative reading
of the search contract. -/
def esSubcadenaCI (t s : List Char) : Bool :=
  esSubLista (t.map sqliteLower) (s.map sqliteLower)

/-- Criterion free of `LIKE` wildcard characters. -/
def sinComodines (t : List Char) : Bool :=
  t.all (fun c => !(c == '%' || c == '_'))

/-- Declarative reading of the email pattern, following the regular
expression character by character: some non-empty at-free `a`, `b`, `c`
with the string equal to `a` + at + `b` + dot + `c`. -/
def patronEmailSpec (s : String) : Prop :=
  ∃ a b c : List Char,
    a ≠ [] ∧ b ≠ [] ∧ c ≠ [] ∧
    '@' ∉ a ∧ '@' ∉ b ∧ '@' ∉ c ∧
    s.data = a ++ '@' :: (b ++ '.' :: c)

/-- Field rule for the name: non-empty. -/
def reglaNombre (p : Persona) : Prop := p.nombre ≠ ""

/-- Field rule for the surname: non-empty. -/
def reglaApellido (p : Persona) : Prop := p.apellido ≠ ""

/-- Field rule for the phone: non-empty and all decimal digits. -/
def reglaTelefono (p : Persona) : Prop :=
  p.telefono.data ≠ [] ∧ ∀ c ∈ p.telefono.data, c.isDigit = true

/-- Field rule for the email: the structural pattern matches. -/
def reglaEmail (p : Persona) : Prop := emailMatch p.email = true

theorem dropWhile_eq_self_of_all (p : Char → Bool) :
    ∀ l : List Char, (∀ c ∈ l, p c = false) → l.dropWhile p = l := by
  intro l h
  cases l with
  | nil => rfl
  | cons a t => simp [List.dropWhile_cons, h a (by simp)]

theorem head?_dropWhile_not (p : Char → Bool) :
    ∀ l : List Char, ∀ c, (l.dropWhile p).head? = some c → p c = false := by
  intro l
  induction l with
  | nil => intro c h; simp at h
  | cons a t ih =>
    intro c h
    rw [List.dropWhile_cons] at h
    by_cases ha : p a = true
    · exact ih c (by simpa [ha] using h)
    · simp [ha] at h
      rw [← h]
      exact Bool.eq_false_iff.mpr ha

theorem dropWhile_eq_self_of_head? (p : Char → Bool) (l : List Char)
    (h : ∀ c, l.head? = some c → p c = false) : l.dropWhile p = l := by
  cases l with
  | nil => rfl
  | cons a t => simp [List.dropWhile_cons, h a rfl]

theorem getLast?_dropWhile (p : Char → Bool) :
    ∀ l : List Char, l.dropWhile p ≠ [] → (l.dropWhile p).getLast? = l.getLast? := by
  intro l
  induction l with
  | nil => intro h; simp at h
  | cons a t ih =>
    intro h
    rw [List.dropWhile_cons] at h ⊢
    by_cases ha : p a = true
    · simp only [ha, if_true] at h ⊢
      have ht : t ≠ [] := by
        intro he; rw [he] at h; simp at h
      rw [ih h]
      cases t with
      | nil => exact absurd rfl ht
      | cons b u => simp [List.getLast?_cons_cons]
    · simp [ha]

theorem stripList_idem (l : List Char) : stripList (stripList l) = stripList l := by
  unfold stripList
  set u := l.dropWhile pyIsSpace with hu
  by_cases hv : u.reverse.dropWhile pyIsSpace = []
  · rw [hv]; rfl
  · set v := u.reverse.dropWhile pyIsSpace with hvdef
    have hu0 : u ≠ [] := by
      intro he
      rw [he] at hvdef
      simp at hvdef
      exact hv hvdef
    have hvlast : v.getLast? = u.head? := by
      rw [hvdef, getLast?_dropWhile pyIsSpace u.reverse hv, List.getLast?_reverse]
    have hdrop1 : v.reverse.dropWhile pyIsSpace = v.reverse := by
      apply dropWhile_eq_self_of_head?
      intro c hc
      rw [List.head?_reverse, hvlast] at hc
      exact head?_dropWhile_not pyIsSpace l c (by rw [← hu]; exact hc)
    rw [hdrop1, List.reverse_reverse]
    have hdrop2 : v.dropWhile pyIsSpace = v := by
      apply dropWhile_eq_self_of_head?
      intro c hc
      exact head?_dropWhile_not pyIsSpace u.reverse c (by rw [← hvdef]; exact hc)
    rw [hdrop2]

theorem mem_dropWhile_sub (p : Char → Bool) (l : List Char) :
    ∀ x ∈ l.dropWhile p, x ∈ l := by
  intro x h
  exact List.IsSuffix.mem h (List.dropWhile_suffix p)

theorem stripList_eq_nil_iff (l : List Char) :
    stripList l = [] ↔ ∀ c ∈ l, pyIsSpace c = true := by
  unfold stripList
  constructor
  · intro h c hc
    rw [List.reverse_eq_nil_iff, List.dropWhile_eq_nil_iff] at h
    rcases List.mem_append.mp
      ((List.takeWhile_append_dropWhile pyIsSpace l) ▸ hc) with hm | hm
    · exact List.mem_takeWhile_imp hm
    · exact h c (List.mem_reverse.mpr hm)
  · intro h
    have h1 : l.dropWhile pyIsSpace = [] :=
      List.dropWhile_eq_nil_iff.mpr h
    rw [h1]; rfl

theorem stripList_of_all_not (l : List Char) (h : ∀ c ∈ l, pyIsSpace c = false) :
    stripList l = l := by
  unfold stripList
  rw [dropWhile_eq_self_of_all pyIsSpace l h,
    dropWhile_eq_self_of_all pyIsSpace l.reverse
      (fun c hc => h c (List.mem_reverse.mp hc)),
    List.reverse_reverse]

theorem pyStrip_idem (s : String) : pyStrip (pyStrip s) = pyStrip s := by
  unfold pyStrip
  exact congrArg String.mk (stripList_idem s.data)

theorem pyStrip_eq_self (s : String) (h : ∀ c ∈ s.data, pyIsSpace c = false) :
    pyStrip s = s := by
  unfold pyStrip
  cases s with
  | mk d => exact congrArg String.mk (stripList_of_all_not d h)

theorem pyStrip_eq_empty_iff (s : String) :
    pyStrip s = "" ↔ ∀ c ∈ s.data, pyIsSpace c = true := by
  unfold pyStrip
  rw [show ("" : String) = ⟨[]⟩ from rfl]
  constructor
  · intro h
    exact (stripList_eq_nil_iff s.data).mp (by injection h)
  · intro h
    exact congrArg String.mk ((stripList_eq_nil_iff s.data).mpr h)

theorem pyTruthy_iff (s : String) : pyTruthy s = true ↔ s ≠ "" := by
  unfold pyTruthy
  constructor
  · intro h he
    rw [he] at h
    exact absurd h (by decide)
  · intro h
    cases hd : s.data with
    | nil => exact absurd (String.ext_iff.mpr (by rw [hd])) h
    | cons a t => simp [hd]

theorem pyIsdigit_iff (s : String) :
    pyIsdigit s = true ↔ s.data ≠ [] ∧ ∀ c ∈ s.data, c.isDigit = true := by
  unfold pyIsdigit
  simp [List.all_eq_true, List.isEmpty_iff]

theorem isDigit_not_space (c : Char) (h : c.isDigit = true) : pyIsSpace c = false := by
  unfold pyIsSpace
  simp only [Bool.or_eq_false_iff, decide_eq_false_iff_not]
  refine ⟨⟨⟨⟨⟨⟨⟨⟨⟨?_, ?_⟩, ?_⟩, ?_⟩, ?_⟩, ?_⟩, ?_⟩, ?_⟩, ?_⟩, ?_⟩ <;>
    (intro he; rw [he] at h; exact absurd h (by decide))

theorem validar_cond_nombre (p : Persona) :
    (!pyTruthy p.nombre) = true ↔ ¬reglaNombre p := by
  unfold reglaNombre
  rw [← pyTruthy_iff]
  simp

theorem validar_cond_apellido (p : Persona) :
    (!pyTruthy p.apellido) = true ↔ ¬reglaApellido p := by
  unfold reglaApellido
  rw [← pyTruthy_iff]
  simp

theorem pyIsdigit_truthy (s : String) (h : pyIsdigit s = true) : pyTruthy s = true := by
  unfold pyTruthy
  simp [List.isEmpty_iff, ((pyIsdigit_iff s).mp h).1]

theorem validar_cond_telefono (p : Persona) :
    (!pyTruthy p.telefono || !pyIsdigit p.telefono) = true ↔ ¬reglaTelefono p := by
  unfold reglaTelefono
  rw [← pyIsdigit_iff]
  constructor
  · intro h hb
    simp [pyIsdigit_truthy p.telefono hb, hb] at h
  · intro h
    have hb : pyIsdigit p.telefono = false := by
      cases hbb : pyIsdigit p.telefono
      · rfl
      · exact absurd hbb h
    simp [hb]

theorem emailMatch_truthy (s : String) (h : emailMatch s = true) : pyTruthy s = true := by
  rw [pyTruthy_iff]
  intro he
  rw [he] at h
  exact absurd h (by decide)

theorem validar_cond_email (p : Persona) :
    (!pyTruthy p.email || !emailMatch p.email) = true ↔ ¬reglaEmail p := by
  unfold reglaEmail
  constructor
  · intro h hb
    simp [emailMatch_truthy p.email hb, hb] at h
  · intro h
    have hb : emailMatch p.email = false := by
      cases hbb : emailMatch p.email
      · rfl
      · exact absurd hbb h
    simp [hb]

/-- C6: counterexample — the all-whitespace input `"   "` is accepted by the
name setter (and `"  "` by the surname setter) even though its stripped
value is the empty string, so the value stored by the accepted assignment
is empty, contradicting the claim that every accepted assignment stores a
non-empty string. -/
theorem c6_counterexample :
    (Persona.nueva "x" "y" "1" "a@b.c").set_nombre "   " =
      .ok { id := none, nombre := "", apellido := "y", telefono := "1", email := "a@b.c" } ∧
    (Persona.nueva "x" "y" "1" "a@b.c").set_apellido "  " =
      .ok { id := none, nombre := "x", apellido := "", telefono := "1", email := "a@b.c" } := by
  constructor <;> rfl

/-- C6 (amended): the name and surname setters reject exactly the empty
string; an accepted assignment stores the input with leading and trailing
whitespace stripped, and that stored value is empty precisely when the
input consists wholly of whitespace (so it is non-empty whenever the input
has a non-whitespace character). -/
theorem c6_setters_strip (p : Persona) (s : String) :
    (s = "" → p.set_nombre s = .error "El nombre no puede estar vacío" ∧
      p.set_apellido s = .error "El apellido no puede estar vacío") ∧
    (s ≠ "" → p.set_nombre s = .ok { p with nombre := pyStrip s } ∧
      p.set_apellido s = .ok { p with apellido := pyStrip s }) ∧
    (pyStrip s = "" ↔ ∀ c ∈ s.data, pyIsSpace c = true) := by
  refine ⟨?_, ?_, pyStrip_eq_empty_iff s⟩
  · intro he
    subst he
    constructor <;> rfl
  · intro h
    have ht : pyTruthy s = true := (pyTruthy_iff s).mpr h
    constructor <;> simp [Persona.set_nombre, Persona.set_apellido, ht]

theorem c6_setters_strip_witness :
    (Persona.nueva "x" "y" "1" "a@b.c").set_nombre " Ana " =
      .ok { id := none, nombre := "Ana", apellido := "y", telefono := "1", email := "a@b.c" } := by
  have h := (c6_setters_strip (Persona.nueva "x" "y" "1" "a@b.c") " Ana ").2.1
    (by decide)
  rw [h.1]
  rfl

/-- C3: assigning a phone succeeds exactly for non-empty all-decimal-digit
strings, in which case the digit string itself is stored; the empty string
and any string containing a non-digit character are rejected with the
phone-validation error. -/
theorem c3_set_telefono (p : Persona) (s : String) :
    ((s.data ≠ [] ∧ ∀ c ∈ s.data, c.isDigit = true) →
      p.set_telefono s = .ok { p with telefono := s }) ∧
    ((s.data = [] ∨ ∃ c ∈ s.data, c.isDigit = false) →
      p.set_telefono s = .error "El teléfono debe ser un número válido") := by
  constructor
  · rintro ⟨h1, h2⟩
    have hd : pyIsdigit s = true := (pyIsdigit_iff s).mpr ⟨h1, h2⟩
    have ht : pyTruthy s = true := pyIsdigit_truthy s hd
    have hs : pyStrip s = s :=
      pyStrip_eq_self s (fun c hc => isDigit_not_space c (h2 c hc))
    simp [Persona.set_telefono, hd, ht, hs]
  · intro h
    by_cases hd : pyIsdigit s = true
    · exfalso
      rcases (pyIsdigit_iff s).mp hd with ⟨h1, h2⟩
      rcases h with h | ⟨c, hc, hcd⟩
      · exact h1 h
      · simp [h2 c hc] at hcd
    · have hd2 : pyIsdigit s = false := Bool.eq_false_iff.mpr hd
      simp [Persona.set_telefono, hd2]

theorem c3_set_telefono_witness :
    (Persona.nueva "x" "y" "1" "a@b.c").set_telefono "0412" =
      .ok { id := none, nombre := "x", apellido := "y", telefono := "0412", email := "a@b.c" } ∧
    (Persona.nueva "x" "y" "1" "a@b.c").set_telefono "04 12" =
      .error "El teléfono debe ser un número válido" := by
  constructor
  · have h := (c3_set_telefono (Persona.nueva "x" "y" "1" "a@b.c") "0412").1
      (by decide)
    rw [h]
    rfl
  · exact (c3_set_telefono (Persona.nueva "x" "y" "1" "a@b.c") "04 12").2
      (Or.inr ⟨' ', by decide, by decide⟩)

/-- C5: `validar` succeeds exactly when all four field rules hold (name and
surname non-empty, phone non-empty and all digits, email matching the
structural pattern), and otherwise fails with the error of the first
offending field in the fixed order name, surname, phone, email. -/
theorem c5_validar (p : Persona) :
    (p.validar = .ok () ↔
      reglaNombre p ∧ reglaApellido p ∧ reglaTelefono p ∧ reglaEmail p) ∧
    (¬reglaNombre p → p.validar = .error "El nombre no puede estar vacío") ∧
    (reglaNombre p → ¬reglaApellido p →
      p.validar = .error "El apellido no puede estar vacío") ∧
    (reglaNombre p → reglaApellido p → ¬reglaTelefono p →
      p.validar = .error "El teléfono debe ser un número válido") ∧
    (reglaNombre p → reglaApellido p → reglaTelefono p → ¬reglaEmail p →
      p.validar = .error "El email debe ser válido") := by
  unfold Persona.validar
  split_ifs with a b c d
  · have ha := (validar_cond_nombre p).mp a
    exact ⟨⟨fun h => by simp at h, fun h => absurd h.1 ha⟩, fun _ => rfl,
      fun hA _ => absurd hA ha, fun hA _ _ => absurd hA ha,
      fun hA _ _ _ => absurd hA ha⟩
  · have hA : reglaNombre p := by
      by_contra h
      exact a ((validar_cond_nombre p).mpr h)
    have hb := (validar_cond_apellido p).mp b
    exact ⟨⟨fun h => by simp at h, fun h => absurd h.2.1 hb⟩,
      fun h => absurd hA h, fun _ _ => rfl,
      fun _ hB _ => absurd hB hb, fun _ hB _ _ => absurd hB hb⟩
  · have hA : reglaNombre p := by
      by_contra h
      exact a ((validar_cond_nombre p).mpr h)
    have hB : reglaApellido p := by
      by_contra h
      exact b ((validar_cond_apellido p).mpr h)
    have hc := (validar_cond_telefono p).mp c
    exact ⟨⟨fun h => by simp at h, fun h => absurd h.2.2.1 hc⟩,
      fun h => absurd hA h, fun _ h => absurd hB h, fun _ _ _ => rfl,
      fun _ _ hC _ => absurd hC hc⟩
  · have hA : reglaNombre p := by
      by_contra h
      exact a ((validar_cond_nombre p).mpr h)
    have hB : reglaApellido p := by
      by_contra h
      exact b ((validar_cond_apellido p).mpr h)
    have hC : reglaTelefono p := by
      by_contra h
      exact c ((validar_cond_telefono p).mpr h)
    have hd := (validar_cond_email p).mp d
    exact ⟨⟨fun h => by simp at h, fun h => absurd h.2.2.2 hd⟩,
      fun h => absurd hA h, fun _ h => absurd hB h, fun _ _ h => absurd hC h,
      fun _ _ _ _ => rfl⟩
  · have hA : reglaNombre p := by
      by_contra h
      exact a ((validar_cond_nombre p).mpr h)
    have hB : reglaApellido p := by
      by_contra h
      exact b ((validar_cond_apellido p).mpr h)
    have hC : reglaTelefono p := by
      by_contra h
      exact c ((validar_cond_telefono p).mpr h)
    have hD : reglaEmail p := by
      by_contra h
      exact d ((validar_cond_email p).mpr h)
    exact ⟨⟨fun _ => ⟨hA, hB, hC, hD⟩, fun _ => rfl⟩,
      fun h => absurd hA h, fun _ h => absurd hB h, fun _ _ h => absurd hC h,
      fun _ _ _ h => absurd hD h⟩

theorem c5_validar_witness :
    (Persona.nueva "Ana" "" "12x" "a@b.c").validar =
      .error "El apellido no puede estar vacío" :=
  (c5_validar (Persona.nueva "Ana" "" "12x" "a@b.c")).2.2.1
    (by unfold reglaNombre; decide) (by unfold reglaApellido; decide)

theorem validar_ok_iff (p : Persona) :
    p.validar = .ok () ↔
      reglaNombre p ∧ reglaApellido p ∧ reglaTelefono p ∧ reglaEmail p := by
  unfold Persona.validar
  split_ifs with a b c d
  · exact ⟨fun h => by simp at h, fun h => absurd h.1 ((validar_cond_nombre p).mp a)⟩
  · exact ⟨fun h => by simp at h, fun h => absurd h.2.1 ((validar_cond_apellido p).mp b)⟩
  · exact ⟨fun h => by simp at h, fun h => absurd h.2.2.1 ((validar_cond_telefono p).mp c)⟩
  · exact ⟨fun h => by simp at h, fun h => absurd h.2.2.2 ((validar_cond_email p).mp d)⟩
  · refine ⟨fun _ => ⟨?_, ?_, ?_, ?_⟩, fun _ => rfl⟩
    · by_contra h; exact a ((validar_cond_nombre p).mpr h)
    · by_contra h; exact b ((validar_cond_apellido p).mpr h)
    · by_contra h; exact c ((validar_cond_telefono p).mpr h)
    · by_contra h; exact d ((validar_cond_email p).mpr h)

theorem validar_error_of_not (p : Persona)
    (h : ¬(reglaNombre p ∧ reglaApellido p ∧ reglaTelefono p ∧ reglaEmail p)) :
    ∃ e, p.validar = .error e := by
  cases hv : p.validar with
  | ok u => cases u; exact absurd ((validar_ok_iff p).mp hv) h
  | error e => exact ⟨e, rfl⟩

/-- C1: the gateway insert re-validates its argument; for a contact with
at least one field violating its rule the validation error is raised, the
parameterized insert is never reached, and the stored table is unchanged. -/
theorem c1_insertar_rechaza_invalido (bd : BaseDatos) (p : Persona)
    (h : ¬(reglaNombre p ∧ reglaApellido p ∧ reglaTelefono p ∧ reglaEmail p)) :
    (insertar_persona bd p).1 = bd ∧
      ∃ e, p.validar = .error e ∧ (insertar_persona bd p).2 = some e := by
  obtain ⟨e, he⟩ := validar_error_of_not p h
  refine ⟨?_, e, he, ?_⟩ <;> simp [insertar_persona, he]

theorem c1_insertar_rechaza_invalido_witness :
    (insertar_persona ⟨[], 1⟩ (Persona.nueva "Ana" "Diaz" "12x" "a@b.c")).1 = ⟨[], 1⟩ ∧
      ∃ e, (Persona.nueva "Ana" "Diaz" "12x" "a@b.c").validar = .error e ∧
        (insertar_persona ⟨[], 1⟩ (Persona.nueva "Ana" "Diaz" "12x" "a@b.c")).2 = some e :=
  c1_insertar_rechaza_invalido ⟨[], 1⟩ (Persona.nueva "Ana" "Diaz" "12x" "a@b.c")
    (by unfold reglaNombre reglaApellido reglaTelefono reglaEmail; decide)

/-- C2: inserting a freshly constructed valid contact succeeds, and
fetching by the identifier assigned by the auto-increment counter yields a
contact whose four fields are identical to the inserted ones and whose
identifier is that new non-null identifier. -/
theorem c2_roundtrip (bd : BaseDatos) (n a t e : String)
    (hwf : BaseDatos.wf bd)
    (hv : (Persona.nueva n a t e).validar = .ok ()) :
    (insertar_persona bd (Persona.nueva n a t e)).2 = none ∧
    obtener_persona_por_id (insertar_persona bd (Persona.nueva n a t e)).1
        bd.siguienteId =
      some { Persona.nueva n a t e with id := some bd.siguienteId } := by
  have hins : insertar_persona bd (Persona.nueva n a t e) =
      ({ filas := bd.filas ++
          [{ id := bd.siguienteId, nombre := pyStrip n, apellido := pyStrip a
             telefono := pyStrip t, email := pyStrip e }]
         siguienteId := bd.siguienteId + 1 }, none) := by
    unfold insertar_persona
    rw [hv]
    rfl
  constructor
  · rw [hins]
  · rw [hins]
    unfold obtener_persona_por_id
    have h1 : bd.filas.filter (fun f => f.id == bd.siguienteId) = [] := by
      rw [List.filter_eq_nil_iff]
      intro f hf
      simp [Nat.ne_of_lt (hwf f hf)]
    simp only [List.filter_append, h1, List.nil_append, List.filter_cons,
      List.filter_nil, beq_self_eq_true, if_true]
    unfold Persona.from_db_row Persona.nueva
    simp [pyStrip_idem]

theorem c2_roundtrip_witness :
    (insertar_persona ⟨[], 1⟩ (Persona.nueva "Ana" "Diaz" "123" "a@b.c")).2 = none ∧
    obtener_persona_por_id
        (insertar_persona ⟨[], 1⟩ (Persona.nueva "Ana" "Diaz" "123" "a@b.c")).1 1 =
      some { Persona.nueva "Ana" "Diaz" "123" "a@b.c" with id := some 1 } :=
  c2_roundtrip ⟨[], 1⟩ "Ana" "Diaz" "123" "a@b.c" (by intro f hf; simp at hf) (by rfl)

/-- C8: `eliminar_contacto` raises the usage error exactly on a falsy
identifier (absent or zero), and for any other identifier not present in
the store it reports success and leaves the stored rows unchanged. -/
theorem c8_eliminar (bd : BaseDatos) :
    (∀ idC, (idC = none ∨ idC = some 0) →
      eliminar_contacto bd idC =
        (bd, some "Debe proporcionar un ID válido para eliminar el contacto")) ∧
    (∀ i, i ≠ 0 → (∀ f ∈ bd.filas, f.id ≠ i) →
      eliminar_contacto bd (some i) = (bd, none)) := by
  constructor
  · rintro idC (rfl | rfl) <;> rfl
  · intro i hi hnin
    unfold eliminar_contacto
    have hfil : bd.filas.filter (fun f => !(f.id == i)) = bd.filas := by
      rw [List.filter_eq_self]
      intro f hf
      simp [hnin f hf]
    simp [hi, hfil]

theorem c8_eliminar_witness :
    eliminar_contacto ⟨[⟨1, "Ana", "Diaz", "123", "a@b.c"⟩], 2⟩ none =
      (⟨[⟨1, "Ana", "Diaz", "123", "a@b.c"⟩], 2⟩,
        some "Debe proporcionar un ID válido para eliminar el contacto") ∧
    eliminar_contacto ⟨[⟨1, "Ana", "Diaz", "123", "a@b.c"⟩], 2⟩ (some 5) =
      (⟨[⟨1, "Ana", "Diaz", "123", "a@b.c"⟩], 2⟩, none) :=
  ⟨(c8_eliminar _).1 none (Or.inl rfl),
    (c8_eliminar _).2 5 (by decide) (by decide)⟩

theorem takeWhile_dropWhile_append_cons (p : Char → Bool) :
    ∀ (a : List Char) (y : Char) (r : List Char),
      (∀ x ∈ a, p x = true) → p y = false →
      (a ++ y :: r).takeWhile p = a ∧ (a ++ y :: r).dropWhile p = y :: r := by
  intro a
  induction a with
  | nil =>
    intro y r _ hy
    simp [List.takeWhile_cons, List.dropWhile_cons, hy]
  | cons x xs ih =>
    intro y r h hy
    have hx : p x = true := h x (by simp)
    have h2 := ih y r (fun z hz => h z (by simp [hz])) hy
    simp [List.takeWhile_cons, List.dropWhile_cons, hx, h2.1, h2.2]

theorem emailMatch_iff (s : String) : emailMatch s = true ↔ patronEmailSpec s := by
  unfold emailMatch patronEmailSpec
  constructor
  · intro h
    cases hre : s.data.dropWhile (fun c => c != '@') with
    | nil => rw [hre] at h; simp at h
    | cons r0 despues =>
      rw [hre] at h
      simp only [Bool.and_eq_true] at h
      obtain ⟨⟨hne, hall⟩, hdot⟩ := h
      rw [List.all_eq_true] at hall
      have hr0 : (fun c => c != '@') r0 = false :=
        head?_dropWhile_not (fun c => c != '@') s.data r0 (by rw [hre]; rfl)
      have hr0at : r0 = '@' := by simpa using hr0
      subst hr0at
      have hsplit : s.data =
          s.data.takeWhile (fun c => c != '@') ++ '@' :: despues := by
        conv_lhs => rw [← List.takeWhile_append_dropWhile (fun c => c != '@') s.data]
        rw [hre]
      have hdot2 : '.' ∈ (despues.drop 1).dropLast := List.elem_iff.mp hdot
      cases hdesp : despues with
      | nil => subst hdesp; simp at hdot2
      | cons d0 dtail =>
        subst hdesp
        simp only [List.drop_succ_cons, List.drop_zero] at hdot2
        have hdtne : dtail ≠ [] := by
          intro hnil
          rw [hnil] at hdot2
          simp at hdot2
        obtain ⟨u, v, huv⟩ := List.append_of_mem hdot2
        have hlast := List.dropLast_append_getLast hdtne
        rw [huv] at hlast
        have hdt2 : dtail = (u ++ '.' :: v) ++ [dtail.getLast hdtne] := hlast.symm
        refine ⟨s.data.takeWhile (fun c => c != '@'), d0 :: u,
          v ++ [dtail.getLast hdtne], ?_, by simp, by simp, ?_, ?_, ?_, ?_⟩
        · intro hnil2
          rw [hnil2] at hne
          simp at hne
        · intro hmem
          have := List.mem_takeWhile_imp hmem
          simp at this
        · intro hmem
          have hd : ('@' : Char) ∈ d0 :: dtail := by
            rcases List.mem_cons.mp hmem with h0 | hu
            · exact h0 ▸ List.mem_cons_self _ _
            · have h3 : ('@' : Char) ∈ dtail.dropLast := by
                rw [huv]
                exact List.mem_append_left _ hu
              exact List.mem_cons_of_mem d0 (List.dropLast_subset dtail h3)
          have := hall '@' hd
          simp at this
        · intro hmem
          have hd : ('@' : Char) ∈ d0 :: dtail := by
            rcases List.mem_append.mp hmem with hv | hl
            · have h3 : ('@' : Char) ∈ dtail.dropLast := by
                rw [huv]
                exact List.mem_append_right _ (List.mem_cons_of_mem '.' hv)
              exact List.mem_cons_of_mem d0 (List.dropLast_subset dtail h3)
            · simp only [List.mem_singleton] at hl
              exact List.mem_cons_of_mem d0 (hl ▸ List.getLast_mem hdtne)
          have := hall '@' hd
          simp at this
        · conv_lhs => rw [hsplit, hdt2]
          simp [List.append_assoc]
  · rintro ⟨a, b, c, ha, hb, hc, hat1, hat2, hat3, heq⟩
    have hq : ∀ x ∈ a, (fun c => c != '@') x = true := by
      intro x hx
      have hxne : x ≠ '@' := fun he => hat1 (he ▸ hx)
      simpa using hxne
    have h2 := takeWhile_dropWhile_append_cons (fun c => c != '@') a '@'
      (b ++ '.' :: c) hq (by simp)
    rw [heq, h2.2]
    simp only [Bool.and_eq_true]
    refine ⟨⟨?_, ?_⟩, ?_⟩
    · rw [h2.1]
      cases a with
      | nil => exact absurd rfl ha
      | cons a0 as => simp
    · rw [List.all_eq_true]
      intro x hx
      rcases List.mem_append.mp hx with hxb | hxc
      · have hxne : x ≠ '@' := fun he => hat2 (he ▸ hxb)
        simpa using hxne
      · rcases List.mem_cons.mp hxc with h0 | hxc2
        · subst h0; simp
        · have hxne : x ≠ '@' := fun he => hat3 (he ▸ hxc2)
          simpa using hxne
    · cases b with
      | nil => exact absurd rfl hb
      | cons b0 bs =>
        rw [List.elem_iff]
        simp only [List.cons_append, List.drop_succ_cons, List.drop_zero]
        rw [List.dropLast_append_of_ne_nil _ (by simp),
          List.dropLast_cons_of_ne_nil hc]
        simp

/-- C4: email assignment succeeds for every string matching the structural
pattern one-or-more non-at characters, at sign, one-or-more non-at
characters, dot, one-or-more non-at characters, and fails with the
email-validation error for every other string; in particular "a@b",
"ab.com" and the empty string are all rejected. -/
theorem c4_set_email (p : Persona) (s : String) :
    (patronEmailSpec s → p.set_email s = .ok { p with email := pyStrip s }) ∧
    (¬patronEmailSpec s → p.set_email s = .error "El email debe ser válido") ∧
    p.set_email "a@b" = .error "El email debe ser válido" ∧
    p.set_email "ab.com" = .error "El email debe ser válido" ∧
    p.set_email "" = .error "El email debe ser válido" := by
  have hconc : ∀ t : String, emailMatch t = false →
      p.set_email t = .error "El email debe ser válido" := by
    intro t ht
    simp [Persona.set_email, ht]
  refine ⟨?_, ?_, hconc "a@b" (by decide), hconc "ab.com" (by decide),
    hconc "" (by decide)⟩
  · intro h
    have hm : emailMatch s = true := (emailMatch_iff s).mpr h
    have ht : pyTruthy s = true := emailMatch_truthy s hm
    simp [Persona.set_email, hm, ht]
  · intro h
    have hm : emailMatch s = false := by
      cases hmm : emailMatch s
      · rfl
      · exact absurd ((emailMatch_iff s).mp hmm) h
    exact hconc s hm

theorem c4_set_email_witness :
    (Persona.nueva "x" "y" "1" "a@b.c").set_email "ana@mail.com" =
      .ok { id := none, nombre := "x", apellido := "y", telefono := "1",
            email := "ana@mail.com" } := by
  have hp : patronEmailSpec "ana@mail.com" :=
    (emailMatch_iff "ana@mail.com").mp (by decide)
  have h := (c4_set_email (Persona.nueva "x" "y" "1" "a@b.c") "ana@mail.com").1 hp
  rw [h]
  rfl

theorem likeMatch_pct_iff (ps : List Char) (s : List Char) :
    likeMatch ('%' :: ps) s = true ↔ ∃ n, likeMatch ps (s.drop n) = true := by
  constructor
  · intro h
    simp only [likeMatch, if_pos, List.any_eq_true, List.mem_range] at h
    obtain ⟨n, _, hn⟩ := h
    exact ⟨n, hn⟩
  · rintro ⟨n, hn⟩
    simp only [likeMatch, if_pos, List.any_eq_true, List.mem_range]
    by_cases hle : n ≤ s.length
    · exact ⟨n, by omega, hn⟩
    · refine ⟨s.length, by omega, ?_⟩
      rw [List.drop_length]
      rwa [List.drop_eq_nil_of_le (by omega)] at hn

theorem likeMatch_pct_nil_true (s : List Char) : likeMatch ['%'] s = true := by
  apply (likeMatch_pct_iff [] s).mpr
  refine ⟨s.length, ?_⟩
  rw [List.drop_length]
  rfl

theorem likeMatch_lit_pct (t : List Char) :
    ∀ s, sinComodines t = true →
      likeMatch (t ++ ['%']) s = empiezaCon (t.map sqliteLower) (s.map sqliteLower) := by
  induction t with
  | nil =>
    intro s _
    simp only [List.nil_append, List.map_nil]
    rw [likeMatch_pct_nil_true s]
    rfl
  | cons c t ih =>
    intro s ht
    unfold sinComodines at ht
    rw [List.all_cons, Bool.and_eq_true] at ht
    obtain ⟨hc, ht2⟩ := ht
    simp only [Bool.not_eq_eq_eq_not, Bool.not_true, Bool.or_eq_false_iff,
      beq_eq_false_iff_ne] at hc
    have ht2R : sinComodines t = true := ht2
    cases s with
    | nil =>
      simp only [List.map_cons, List.map_nil, List.cons_append]
      simp [likeMatch, empiezaCon, hc.1]
    | cons d s2 =>
      simp only [List.cons_append, List.map_cons]
      simp [likeMatch, empiezaCon, hc.1, hc.2, ih s2 ht2R]

theorem esSubLista_iff_drop (t : List Char) :
    ∀ s, esSubLista t s = true ↔ ∃ n, empiezaCon t (s.drop n) = true := by
  intro s
  induction s with
  | nil =>
    constructor
    · intro h
      refine ⟨0, ?_⟩
      cases t with
      | nil => rfl
      | cons a b => simp [esSubLista] at h
    · rintro ⟨n, hn⟩
      rw [List.drop_nil] at hn
      cases t with
      | nil => rfl
      | cons a b => simp [empiezaCon] at hn
  | cons d s2 ih =>
    constructor
    · intro h
      rw [show esSubLista t (d :: s2) =
        (empiezaCon t (d :: s2) || esSubLista t s2) from rfl] at h
      have hor : empiezaCon t (d :: s2) = true ∨ esSubLista t s2 = true := by
        simpa using h
      rcases hor with h1 | h2
      · exact ⟨0, h1⟩
      · obtain ⟨n, hn⟩ := ih.mp h2
        exact ⟨n + 1, by simpa using hn⟩
    · rintro ⟨n, hn⟩
      show (empiezaCon t (d :: s2) || esSubLista t s2) = true
      cases n with
      | zero =>
        rw [List.drop_zero] at hn
        simp [hn]
      | succ m =>
        have h2 := ih.mpr ⟨m, by simpa using hn⟩
        simp [h2]

theorem likeMatch_substring (t s : List Char) (ht : sinComodines t = true) :
    likeMatch ('%' :: (t ++ ['%'])) s =
      esSubLista (t.map sqliteLower) (s.map sqliteLower) := by
  cases hR : esSubLista (t.map sqliteLower) (s.map sqliteLower) with
  | true =>
    obtain ⟨n, hn⟩ := (esSubLista_iff_drop _ _).mp hR
    apply (likeMatch_pct_iff _ _).mpr
    refine ⟨n, ?_⟩
    rw [likeMatch_lit_pct t _ ht, List.map_drop]
    exact hn
  | false =>
    cases hL : likeMatch ('%' :: (t ++ ['%'])) s with
    | false => rfl
    | true =>
      obtain ⟨n, hn⟩ := (likeMatch_pct_iff _ _).mp hL
      rw [likeMatch_lit_pct t _ ht, List.map_drop] at hn
      have h2 := (esSubLista_iff_drop _ _).mpr ⟨n, hn⟩
      rw [hR] at h2
      exact absurd h2 (by simp)

theorem likeMatch_pct_pct_pct (s : List Char) : likeMatch ['%', '%', '%'] s = true := by
  apply (likeMatch_pct_iff _ _).mpr
  refine ⟨s.length, ?_⟩
  rw [List.drop_length]
  decide

/-- C7: with a wildcard-free criterion the service search returns exactly
the stored rows whose name, surname or email contains the criterion as a
case-insensitive substring — the phone column is never consulted, so a
criterion occurring in no name, surname or email yields the empty list
even if it occurs inside stored phone numbers — and when the underlying
query fails the error is swallowed and the empty list is returned. -/
theorem c7_buscar_contacto (bd : BaseDatos) (criterio : String) :
    (sinComodines criterio.data = true →
      buscar_contacto_ok bd criterio =
        (bd.filas.filter (fun f =>
          esSubcadenaCI criterio.data f.nombre.data ||
          esSubcadenaCI criterio.data f.apellido.data ||
          esSubcadenaCI criterio.data f.email.data)).map Persona.from_db_row) ∧
    (sinComodines criterio.data = true →
      (∀ f ∈ bd.filas, esSubcadenaCI criterio.data f.nombre.data = false ∧
        esSubcadenaCI criterio.data f.apellido.data = false ∧
        esSubcadenaCI criterio.data f.email.data = false) →
      buscar_contacto_ok bd criterio = []) ∧
    (∀ e, buscar_contacto (.error e) = []) := by
  have hfil : sinComodines criterio.data = true →
      ∀ f : Fila, filaCoincide criterio f =
        (esSubcadenaCI criterio.data f.nombre.data ||
         esSubcadenaCI criterio.data f.apellido.data ||
         esSubcadenaCI criterio.data f.email.data) := by
    intro ht f
    unfold filaCoincide patronBusqueda esSubcadenaCI
    rw [likeMatch_substring _ _ ht, likeMatch_substring _ _ ht,
      likeMatch_substring _ _ ht]
  refine ⟨?_, ?_, fun e => rfl⟩
  · intro ht
    unfold buscar_contacto_ok buscar_contacto evalConsultaBusqueda
    rw [List.filter_congr (fun f _ => hfil ht f)]
  · intro ht hnone
    unfold buscar_contacto_ok buscar_contacto evalConsultaBusqueda
    have hnil : bd.filas.filter (filaCoincide criterio) = [] := by
      rw [List.filter_eq_nil_iff]
      intro f hf
      rw [hfil ht f]
      obtain ⟨h1, h2, h3⟩ := hnone f hf
      simp [h1, h2, h3]
    rw [hnil]
    rfl

theorem c7_buscar_contacto_witness :
    buscar_contacto_ok ⟨[⟨1, "Ana", "Diaz", "999123", "a@b.c"⟩], 2⟩ "999" = [] :=
  (c7_buscar_contacto ⟨[⟨1, "Ana", "Diaz", "999123", "a@b.c"⟩], 2⟩ "999").2.1
    (by decide) (by decide)

/-- C9: the criterion is interpolated into the LIKE pattern without
escaping, so wildcard characters act as wildcards: searching for the
one-character criterion percent matches every stored row, in particular a
row none of whose stored fields contains a literal percent sign. -/
theorem c9_buscar_comodin (bd : BaseDatos) :
    buscar_contacto_ok bd "%" = bd.filas.map Persona.from_db_row ∧
    (buscar_contacto_ok ⟨[⟨1, "Ana", "Diaz", "123", "a@b.c"⟩], 2⟩ "%" =
      [⟨some 1, "Ana", "Diaz", "123", "a@b.c"⟩] ∧
      esSubcadenaLiteral "%".data "Ana".data = false ∧
      esSubcadenaLiteral "%".data "Diaz".data = false ∧
      esSubcadenaLiteral "%".data "123".data = false ∧
      esSubcadenaLiteral "%".data "a@b.c".data = false) := by
  constructor
  · unfold buscar_contacto_ok buscar_contacto evalConsultaBusqueda
    have hall : bd.filas.filter (filaCoincide "%") = bd.filas := by
      rw [List.filter_eq_self]
      intro f _
      unfold filaCoincide
      have hp : patronBusqueda "%" = ['%', '%', '%'] := rfl
      rw [hp]
      simp [likeMatch_pct_pct_pct]
    rw [hall]
  · exact ⟨by decide, by decide, by decide, by decide, by decide⟩

/-- C10: counterexample — importing a file whose first row is valid and
whose second row has an invalid phone inserts one row and aborts, yet the
current contact ends up as the second (failing, never inserted) row's
contact, which differs from the contact built from the last successfully
imported row. -/
theorem c10_counterexample :
    importar_contactos_desde_csv ⟨none, ⟨[], 1⟩⟩
        [["Ana", "Diaz", "123", "a@b.c"], ["Luis", "Gomez", "12x", "l@g.c"]] =
      (⟨some (Persona.nueva "Luis" "Gomez" "12x" "l@g.c"),
        ⟨[⟨1, "Ana", "Diaz", "123", "a@b.c"⟩], 2⟩⟩,
       some (mensajeImportacion "El teléfono debe ser un número válido")) ∧
    Persona.nueva "Luis" "Gomez" "12x" "l@g.c" ≠
      Persona.nueva "Ana" "Diaz" "123" "a@b.c" := by
  constructor
  · rfl
  · decide

theorem importar_todo_valido :
    ∀ (filas : List (List String)) (st : Funcionalidad), filas ≠ [] →
      (∀ fila ∈ filas, ∃ n a t e, fila = [n, a, t, e] ∧
        (Persona.nueva n a t e).validar = .ok ()) →
      (importar_contactos_desde_csv st filas).2 = none ∧
      ∃ g, filas.getLast? = some g ∧
        (importar_contactos_desde_csv st filas).1.persona = contactoDeFila g := by
  intro filas
  induction filas with
  | nil => intro st hne _; exact absurd rfl hne
  | cons fila resto ih =>
    intro st _ h
    obtain ⟨n, a, t, e, hfe, hval⟩ := h fila (by simp)
    subst hfe
    have hag : agregar_contacto ⟨some (Persona.nueva n a t e), st.bd⟩ =
        (⟨some (Persona.nueva n a t e),
          (insertar_persona st.bd (Persona.nueva n a t e)).1⟩, none) := by
      simp only [agregar_contacto, insertar_persona, hval]
    have hstep : importar_contactos_desde_csv st ([n, a, t, e] :: resto) =
        importar_contactos_desde_csv
          ⟨some (Persona.nueva n a t e),
           (insertar_persona st.bd (Persona.nueva n a t e)).1⟩ resto := by
      simp only [importar_contactos_desde_csv, hag]
    cases resto with
    | nil =>
      rw [hstep]
      exact ⟨rfl, ⟨[n, a, t, e], rfl, rfl⟩⟩
    | cons fila2 resto2 =>
      rw [hstep]
      have ih2 := ih ⟨some (Persona.nueva n a t e),
          (insertar_persona st.bd (Persona.nueva n a t e)).1⟩
        (by simp) (fun f hf => h f (by simp [hf]))
      obtain ⟨h1, g, hg, hp⟩ := ih2
      exact ⟨h1, g, by rw [List.getLast?_cons_cons]; exact hg, hp⟩

/-- C10 (amended): CSV import drives the current contact as a side
effect: an import whose rows are all well-shaped and valid completes
without error and leaves the current contact equal to the contact built
from the last row; an import aborted by a validation failure leaves the
current contact at the failing row's contact (not at the last successfully
imported one); and an import aborted by a row of the wrong width leaves
the current contact at the contact of the last row before the malformed
one. -/
theorem c10_importar (st : Funcionalidad) (filas : List (List String)) :
    (filas ≠ [] →
      (∀ fila ∈ filas, ∃ n a t e, fila = [n, a, t, e] ∧
        (Persona.nueva n a t e).validar = .ok ()) →
      (importar_contactos_desde_csv st filas).2 = none ∧
      ∃ g, filas.getLast? = some g ∧
        (importar_contactos_desde_csv st filas).1.persona = contactoDeFila g) ∧
    ((importar_contactos_desde_csv ⟨none, ⟨[], 1⟩⟩
        [["Ana", "Diaz", "123", "a@b.c"], ["Luis", "Gomez", "12x", "l@g.c"]]).1.persona =
      some (Persona.nueva "Luis" "Gomez" "12x" "l@g.c")) ∧
    ((importar_contactos_desde_csv ⟨none, ⟨[], 1⟩⟩
        [["Ana", "Diaz", "123", "a@b.c"], ["solo", "tres", "cols"]]).1.persona =
      some (Persona.nueva "Ana" "Diaz" "123" "a@b.c")) :=
  ⟨importar_todo_valido filas st, by rfl, by rfl⟩

theorem c10_importar_witness :
    (importar_contactos_desde_csv ⟨none, ⟨[], 1⟩⟩
        [["Ana", "Diaz", "123", "a@b.c"]]).2 = none ∧
    ∃ g, [["Ana", "Diaz", "123", "a@b.c"]].getLast? = some g ∧
      (importar_contactos_desde_csv ⟨none, ⟨[], 1⟩⟩
        [["Ana", "Diaz", "123", "a@b.c"]]).1.persona = contactoDeFila g :=
  (c10_importar ⟨none, ⟨[], 1⟩⟩ [["Ana", "Diaz", "123", "a@b.c"]]).1
    (by decide) (fun fila hf => by
      rw [List.mem_singleton.mp hf]
      exact ⟨"Ana", "Diaz", "123", "a@b.c", rfl, by rfl⟩)
